import Mathlib

/-!
Verification of the rasterization specification of `open-geo-tutorial`,
chapter 4 (`src/Python/chapters/chapter_4_vector.ipynb`).

The notebook opens a shapefile layer and burns it into a raster aligned with
a satellite image.  The burning itself is delegated to the external library
call `gdal.RasterizeLayer`; the repository contains no implementation of the
rasterization core, only its caller.  Following the specification (§3, §4.1),
the core — `rasterize(features, grid, background, all_touched)` — is modelled
here from the spec's words; the notebook's own code (output-dataset creation,
class-count check) is embedded directly from the source.

Coordinates are modelled with exact integers in place of the doubles used by
the geospatial library; the only half-integral quantity, the cell center, is
handled by scaling the geometry by two for the point-in-polygon test, which
is invariant under uniform scaling.
-/

/-- A point with integer coordinates, standing in for an (x, y) coordinate
pair of a polygon boundary ring. -/
structure Pt where
  x : Int
  y : Int
  deriving DecidableEq, Repr

/-- Modelled from the spec (§3, Data Model): a Polygon Feature is "an ordered
sequence of boundary rings (each ring: ordered sequence of (x, y) coordinate
pairs, closed), plus an attribute value (here, an integer class ID)".  The
rasterization core is missing from the repository sources (the notebook calls
the external `gdal.RasterizeLayer`), so the data model follows the spec. -/
structure Feature where
  rings : List (List Pt)
  attr : Int
  deriving DecidableEq, Repr

/-- Modelled from the spec (§3, Data Model): a Grid Definition is "origin
(x0, y0), cell size (sx, sy; sy conventionally negative for north-up rasters),
column count, row count".  Counts are integers so that the `≤ 0` failure cases
of §4.1 are representable. -/
structure GridDef where
  x0 : Int
  y0 : Int
  sx : Int
  sy : Int
  ncols : Int
  nrows : Int
  deriving DecidableEq, Repr

/-- Modelled from the spec (§7, Error Handling Design): the error kinds of the
rasterizer, `InvalidGridError` and `UnsupportedAttributeTypeError`. -/
inductive RasterizeError where
  | invalidGridError
  | unsupportedAttributeTypeError
  deriving DecidableEq, Repr

/-- The grid-definition invariant of spec §3: "columns/rows ≥ 1, cell sizes
non-zero". -/
def validGrid (g : GridDef) : Prop :=
  0 < g.ncols ∧ 0 < g.nrows ∧ g.sx ≠ 0 ∧ g.sy ≠ 0

instance (g : GridDef) : Decidable (validGrid g) := by
  unfold validGrid; infer_instance

/-- An attribute value representable in the output raster's value type: the
notebook creates a single-byte (`gdal.GDT_Byte`) output, so the representable
values are the integers in [0, 255] (spec §4.1 Inputs). -/
def attrRepresentable (a : Int) : Prop :=
  0 ≤ a ∧ a ≤ 255

instance (a : Int) : Decidable (attrRepresentable a) := by
  unfold attrRepresentable; infer_instance

/-- All (x, y) pairs appearing in the feature's boundary rings. -/
def featurePoints (f : Feature) : List Pt :=
  f.rings.flatten

/-- An axis-aligned bounding box. -/
structure BBox where
  xlo : Int
  xhi : Int
  ylo : Int
  yhi : Int
  deriving DecidableEq, Repr

/-- Bounding box of a list of points (`none` for an empty list). -/
def bboxOfPoints : List Pt → Option BBox
  | [] => none
  | p :: ps =>
    some (ps.foldl
      (fun bb q => ⟨min bb.xlo q.x, max bb.xhi q.x, min bb.ylo q.y, max bb.yhi q.y⟩)
      ⟨p.x, p.x, p.y, p.y⟩)

/-- Bounding box of a feature's geometry. -/
def featureBBox (f : Feature) : Option BBox :=
  bboxOfPoints (featurePoints f)

/-- Two closed intervals [alo, ahi] and [blo, bhi] overlap. -/
def intervalsOverlap (alo ahi blo bhi : Int) : Bool :=
  decide (alo ≤ bhi) && decide (blo ≤ ahi)

/-- The consecutive-vertex edges of a (closed) boundary ring. -/
def ringEdges (ring : List Pt) : List (Pt × Pt) :=
  ring.zip ring.tail

/-- Whether the edge from `a` to `b` crosses the horizontal ray extending from
`p` in the +x direction: the edge straddles the ray's height and the ray hits
it left of its crossing abscissa (standard even–odd ray casting, written
division-free by multiplying through by `b.y - a.y`). -/
def edgeCrossesRay (p a b : Pt) : Bool :=
  (decide (p.y < a.y) != decide (p.y < b.y)) &&
    (if 0 < b.y - a.y then
      decide ((p.x - a.x) * (b.y - a.y) < (b.x - a.x) * (p.y - a.y))
    else
      decide ((b.x - a.x) * (p.y - a.y) < (p.x - a.x) * (b.y - a.y)))

/-- Even–odd point-in-polygon test over all boundary rings: a point is inside
when a ray from it crosses the boundary an odd number of times (holes given as
additional rings are subtracted by parity). -/
def pointInPoly (rings : List (List Pt)) (p : Pt) : Bool :=
  (rings.foldl
      (fun n ring => n + (ringEdges ring).countP (fun e => edgeCrossesRay p e.1 e.2)) 0)
    % 2 == 1

/-- A point scaled by a factor `k` (used to double the geometry so the
half-integral cell center becomes exact). -/
def scalePt (k : Int) (p : Pt) : Pt :=
  ⟨k * p.x, k * p.y⟩

/-- The cell center of row `r`, column `c`, in coordinates scaled by two:
(2·x0 + (2c+1)·sx, 2·y0 + (2r+1)·sy). -/
def cellCenter2 (g : GridDef) (r c : Nat) : Pt :=
  ⟨2 * g.x0 + (2 * (c : Int) + 1) * g.sx, 2 * g.y0 + (2 * (r : Int) + 1) * g.sy⟩

/-- Whether the center of the cell at row `r`, column `c` falls inside the
polygon (evaluated on the doubled geometry; even–odd crossing parity is
invariant under uniform scaling). -/
def centerInPoly (g : GridDef) (f : Feature) (r c : Nat) : Bool :=
  pointInPoly (f.rings.map (fun ring => ring.map (scalePt 2))) (cellCenter2 g r c)

/-- Lower x-edge coordinate of the cell in column `c` (may exceed
`cellXhigh` when `sx` is negative; membership tests use min/max). -/
def cellXlow (g : GridDef) (c : Nat) : Int := g.x0 + (c : Int) * g.sx

/-- Upper x-edge coordinate of the cell in column `c`. -/
def cellXhigh (g : GridDef) (c : Nat) : Int := g.x0 + ((c : Int) + 1) * g.sx

/-- Lower y-edge coordinate of the cell in row `r`. -/
def cellYlow (g : GridDef) (r : Nat) : Int := g.y0 + (r : Int) * g.sy

/-- Upper y-edge coordinate of the cell in row `r`. -/
def cellYhigh (g : GridDef) (r : Nat) : Int := g.y0 + ((r : Int) + 1) * g.sy

/-- Whether a point lies in (the closure of) the cell at row `r`, column `c`. -/
def inCellRect (g : GridDef) (r c : Nat) (p : Pt) : Bool :=
  decide (min (cellXlow g c) (cellXhigh g c) ≤ p.x) &&
  decide (p.x ≤ max (cellXlow g c) (cellXhigh g c)) &&
  decide (min (cellYlow g r) (cellYhigh g r) ≤ p.y) &&
  decide (p.y ≤ max (cellYlow g r) (cellYhigh g r))

/-- Sign of the cross product (b - a) × (c - a): orientation of the triple. -/
def orient (a b c : Pt) : Int :=
  let v := (b.x - a.x) * (c.y - a.y) - (b.y - a.y) * (c.x - a.x)
  if 0 < v then 1 else if v < 0 then -1 else 0

/-- Whether `p` lies on the closed segment from `a` to `b`. -/
def onSegment (a b p : Pt) : Bool :=
  (orient a b p == 0) &&
  decide (min a.x b.x ≤ p.x) && decide (p.x ≤ max a.x b.x) &&
  decide (min a.y b.y ≤ p.y) && decide (p.y ≤ max a.y b.y)

/-- Whether the closed segments p1–q1 and p2–q2 intersect (standard
orientation test plus collinear-overlap cases). -/
def segmentsIntersect (p1 q1 p2 q2 : Pt) : Bool :=
  let o1 := orient p1 q1 p2
  let o2 := orient p1 q1 q2
  let o3 := orient p2 q2 p1
  let o4 := orient p2 q2 q1
  ((o1 != o2) && (o3 != o4)) ||
    onSegment p1 q1 p2 || onSegment p1 q1 q2 ||
    onSegment p2 q2 p1 || onSegment p2 q2 q1

/-- The four corners of the cell at row `r`, column `c`. -/
def cellCorners (g : GridDef) (r c : Nat) : List Pt :=
  [⟨cellXlow g c, cellYlow g r⟩, ⟨cellXhigh g c, cellYlow g r⟩,
   ⟨cellXhigh g c, cellYhigh g r⟩, ⟨cellXlow g c, cellYhigh g r⟩]

/-- The four boundary sides of the cell at row `r`, column `c`. -/
def cellSides (g : GridDef) (r c : Nat) : List (Pt × Pt) :=
  ringEdges (cellCorners g r c ++ [⟨cellXlow g c, cellYlow g r⟩])

/-- Modelled from the spec (§4.1 Inputs, `all_touched`): whether "the
polygon's boundary or interior intersects any part of the cell".  Decidable
rendering: the cell center or a cell corner lies inside the polygon, a
polygon vertex lies in the cell, or a polygon edge meets a cell side. -/
def cellTouched (g : GridDef) (f : Feature) (r c : Nat) : Bool :=
  centerInPoly g f r c ||
  (cellCorners g r c).any (fun p => pointInPoly f.rings p) ||
  (featurePoints f).any (fun p => inCellRect g r c p) ||
  f.rings.any (fun ring =>
    (ringEdges ring).any (fun e =>
      (cellSides g r c).any (fun s => segmentsIntersect e.1 e.2 s.1 s.2)))

/-- Modelled from the spec (§4.1): whether the feature covers the cell at row
`r`, column `c` under the given `all_touched` policy.  A candidate cell must
meet the feature's bounding box (so a feature entirely outside the grid extent
covers no cell, §4.1 Edge cases); then, "if true, a cell is considered
'covered' by a polygon if the polygon's boundary or interior intersects any
part of the cell ...; if false, only cells whose center falls inside the
polygon are covered". -/
def coversCell (allTouched : Bool) (g : GridDef) (f : Feature) (r c : Nat) : Bool :=
  match featureBBox f with
  | none => false
  | some bb =>
    intervalsOverlap bb.xlo bb.xhi
        (min (cellXlow g c) (cellXhigh g c)) (max (cellXlow g c) (cellXhigh g c)) &&
    intervalsOverlap bb.ylo bb.yhi
        (min (cellYlow g r) (cellYhigh g r)) (max (cellYlow g r) (cellYhigh g r)) &&
    (if allTouched then cellTouched g f r c else centerInPoly g f r c)

/-- Burn one feature into one raster row (cells are indexed from `c0`):
each covered cell is set to the feature's attribute value. -/
def burnRow (t : Bool) (g : GridDef) (f : Feature) (r : Nat) : Nat → List Int → List Int
  | _, [] => []
  | c, v :: vs =>
    (if coversCell t g f r c then f.attr else v) :: burnRow t g f r (c + 1) vs

/-- Burn one feature into the raster rows (rows are indexed from `r0`). -/
def burnRows (t : Bool) (g : GridDef) (f : Feature) : Nat → List (List Int) → List (List Int)
  | _, [] => []
  | r, row :: rows => burnRow t g f r 0 row :: burnRows t g f (r + 1) rows

/-- Modelled from the spec (§4.1 Algorithm, step 2): "for each covered cell,
set its value to the feature's attribute value". -/
def burnFeature (t : Bool) (g : GridDef) (ras : List (List Int)) (f : Feature) :
    List (List Int) :=
  burnRows t g f 0 ras

/-- Modelled from the spec (§4.1 Algorithm, step 1): "Allocate the output
grid, fill every cell with `background`" (the notebook's `b.Fill(0)`). -/
def fillGrid (nrows ncols : Nat) (background : Int) : List (List Int) :=
  List.replicate nrows (List.replicate ncols background)

/-- Modelled from the spec (§4.1): the rasterization core
`rasterize(features, grid, background, all_touched)`, which is performed in
the repository by the external call `gdal.RasterizeLayer` and is therefore
absent from the sources.  Fails with `InvalidGridError` "if column/row count
≤ 0 or either cell size is 0", fails with `UnsupportedAttributeTypeError`
"if an attribute value cannot be represented in the output raster's value
type", and otherwise burns the features in input order into a
background-filled grid (last feature wins on overlap). -/
def rasterize (features : List Feature) (grid : GridDef) (background : Int)
    (allTouched : Bool) : Except RasterizeError (List (List Int)) :=
  if grid.ncols ≤ 0 ∨ grid.nrows ≤ 0 ∨ grid.sx = 0 ∨ grid.sy = 0 then
    .error .invalidGridError
  else if features.any (fun f => decide (¬ attrRepresentable f.attr)) then
    .error .unsupportedAttributeTypeError
  else
    .ok (features.foldl (fun ras f => burnFeature allTouched grid ras f)
      (fillGrid grid.nrows.toNat grid.ncols.toNat background))

instance {ε α : Type} [DecidableEq ε] [DecidableEq α] : DecidableEq (Except ε α) :=
  fun x y =>
    match x, y with
    | .error e, .error f =>
      if h : e = f then isTrue (congrArg Except.error h)
      else isFalse (fun hc => h (by injection hc))
    | .error _, .ok _ => isFalse (fun hc => Except.noConfusion hc)
    | .ok _, .error _ => isFalse (fun hc => Except.noConfusion hc)
    | .ok a, .ok b =>
      if h : a = b then isTrue (congrArg Except.ok h)
      else isFalse (fun hc => h (by injection hc))

/-- Total cell accessor for a raster represented as a list of rows. -/
def cellAt (ras : List (List Int)) (r c : Nat) : Int :=
  (ras.getD r []).getD c 0

/-- The raster has `nr` rows, each of `nc` cells. -/
def Shaped (nr nc : Nat) (ras : List (List Int)) : Prop :=
  ras.length = nr ∧ ∀ row ∈ ras, row.length = nc

instance (nr nc : Nat) (ras : List (List Int)) : Decidable (Shaped nr nc ras) := by
  unfold Shaped; infer_instance

/-- GDAL's six-element geotransform, as returned by `GetGeoTransform`:
origin, pixel sizes, and the two rotation terms. -/
structure GeoTransform where
  originX : Int
  pixelWidth : Int
  rotX : Int
  originY : Int
  rotY : Int
  pixelHeight : Int
  deriving DecidableEq, Repr

/-- Metadata of a GDAL raster dataset as used by the notebook: size in
columns (`RasterXSize`) and rows (`RasterYSize`), band count, projection
reference string, and geotransform. -/
structure Dataset where
  rasterXSize : Int
  rasterYSize : Int
  bandCount : Int
  projectionRef : String
  geoTransform : GeoTransform
  deriving DecidableEq, Repr

/-- Embedding of `memory_driver.Create(..., ncol, nrow, 1, gdal.GDT_Byte)`:
a fresh dataset of the given size and band count, with projection and
geotransform still unset. -/
def gdalCreate (ncol nrow nbands : Int) : Dataset :=
  ⟨ncol, nrow, nbands, "", ⟨0, 0, 0, 0, 0, 0⟩⟩

/-- Embedding of `out_raster_ds.SetProjection(proj)`. -/
def setProjection (d : Dataset) (p : String) : Dataset :=
  { d with projectionRef := p }

/-- Embedding of `out_raster_ds.SetGeoTransform(ext)`. -/
def setGeoTransform (d : Dataset) (gt : GeoTransform) : Dataset :=
  { d with geoTransform := gt }

/-- Embedding of the notebook's ROI-dataset creation (chapter 4, "Pure Python
version -- gdal.RasterizeLayer" cell): fetch `ncol = raster_ds.RasterXSize`,
`nrow = raster_ds.RasterYSize`, `proj = raster_ds.GetProjectionRef()`,
`ext = raster_ds.GetGeoTransform()` from the source satellite raster, then
`Create(..., ncol, nrow, 1, gdal.GDT_Byte)`, `SetProjection(proj)`,
`SetGeoTransform(ext)` — all before `gdal.RasterizeLayer` runs. -/
def createRoiDataset (src : Dataset) : Dataset :=
  let ncol := src.rasterXSize
  let nrow := src.rasterYSize
  let proj := src.projectionRef
  let ext := src.geoTransform
  setGeoTransform (setProjection (gdalCreate ncol nrow 1) proj) ext

/-- C9: the ROI output raster created by the notebook's pure-Python
rasterization path has exactly the source satellite raster's column count,
row count, geotransform (origin and cell sizes), and projection string,
copied unmodified before rasterization. -/
theorem roi_dataset_copies_source_metadata (src : Dataset) :
    (createRoiDataset src).rasterXSize = src.rasterXSize ∧
    (createRoiDataset src).rasterYSize = src.rasterYSize ∧
    (createRoiDataset src).projectionRef = src.projectionRef ∧
    (createRoiDataset src).geoTransform = src.geoTransform :=
  ⟨rfl, rfl, rfl, rfl⟩

/-- Embedding of `classes = np.unique(roi)`: the sorted list of the distinct
values occurring in the (flattened) array. -/
def npUnique (l : List Int) : List Int :=
  List.insertionSort (fun a b => a ≤ b) l.dedup

/-- Embedding of `(roi == c).sum()` from the class-count check cell: the
number of pixels of `roi` equal to the class label `c`. -/
def classPixelCount (roi : List Int) (c : Int) : Nat :=
  roi.count c

theorem burnRow_length (t : Bool) (g : GridDef) (f : Feature) (r : Nat) :
    ∀ (c0 : Nat) (l : List Int), (burnRow t g f r c0 l).length = l.length := by
  intro c0 l
  induction l generalizing c0 with
  | nil => rfl
  | cons v vs ih => simp [burnRow, ih]

theorem burnRow_getD (t : Bool) (g : GridDef) (f : Feature) (r : Nat) :
    ∀ (c0 c : Nat) (l : List Int), c < l.length →
      (burnRow t g f r c0 l).getD c 0 =
        if coversCell t g f r (c0 + c) then f.attr else l.getD c 0 := by
  intro c0 c l
  induction l generalizing c0 c with
  | nil => intro h; simp at h
  | cons v vs ih =>
    intro h
    cases c with
    | zero => simp [burnRow]
    | succ n =>
      have hn : n < vs.length := by simpa using h
      have := ih (c0 + 1) n hn
      simp only [burnRow, List.getD_cons_succ, this]
      have harith : c0 + 1 + n = c0 + (n + 1) := by omega
      rw [harith]

theorem burnRows_length (t : Bool) (g : GridDef) (f : Feature) :
    ∀ (r0 : Nat) (ras : List (List Int)), (burnRows t g f r0 ras).length = ras.length := by
  intro r0 ras
  induction ras generalizing r0 with
  | nil => rfl
  | cons row rows ih => simp [burnRows, ih]

theorem burnRows_getD (t : Bool) (g : GridDef) (f : Feature) :
    ∀ (r0 r : Nat) (ras : List (List Int)), r < ras.length →
      (burnRows t g f r0 ras).getD r [] = burnRow t g f (r0 + r) 0 (ras.getD r []) := by
  intro r0 r ras
  induction ras generalizing r0 r with
  | nil => intro h; simp at h
  | cons row rows ih =>
    intro h
    cases r with
    | zero => simp [burnRows]
    | succ n =>
      have hn : n < rows.length := by simpa using h
      have := ih (r0 + 1) n hn
      simp only [burnRows, List.getD_cons_succ, this]
      have harith : r0 + 1 + n = r0 + (n + 1) := by omega
      rw [harith]

theorem shaped_burnFeature (t : Bool) (g : GridDef) (f : Feature) {nr nc : Nat}
    {ras : List (List Int)} (h : Shaped nr nc ras) :
    Shaped nr nc (burnFeature t g ras f) := by
  obtain ⟨hlen, hrow⟩ := h
  constructor
  · rw [burnFeature, burnRows_length]; exact hlen
  · suffices haux : ∀ (r0 : Nat) (l : List (List Int)), (∀ row ∈ l, row.length = nc) →
        ∀ row ∈ burnRows t g f r0 l, row.length = nc by
      exact haux 0 ras hrow
    intro r0 l
    induction l generalizing r0 with
    | nil => intro _ row hm; simp [burnRows] at hm
    | cons x xs ih =>
      intro hl row hm
      simp only [burnRows, List.mem_cons] at hm
      rcases hm with hm | hm
      · rw [hm, burnRow_length]
        exact hl x (List.mem_cons_self x xs)
      · exact ih (r0 + 1) (fun q hq => hl q (List.mem_cons_of_mem x hq)) row hm

theorem rowAt_mem {ras : List (List Int)} {r : Nat} (h : r < ras.length) :
    ras.getD r [] ∈ ras := by
  rw [List.getD_eq_getElem ras [] h]
  exact List.getElem_mem h

theorem cellAt_burnFeature (t : Bool) (g : GridDef) (f : Feature) {nr nc : Nat}
    {ras : List (List Int)} (hsh : Shaped nr nc ras) {r c : Nat}
    (hr : r < nr) (hc : c < nc) :
    cellAt (burnFeature t g ras f) r c =
      if coversCell t g f r c then f.attr else cellAt ras r c := by
  obtain ⟨hlen, hrow⟩ := hsh
  have hrl : r < ras.length := by rw [hlen]; exact hr
  have hcl : c < (ras.getD r []).length := by
    rw [hrow (ras.getD r []) (rowAt_mem hrl)]; exact hc
  unfold cellAt burnFeature
  rw [burnRows_getD t g f 0 r ras hrl, burnRow_getD t g f (0 + r) 0 c _ hcl]
  simp

theorem getD_replicate_of_lt {α : Type} {a d : α} : ∀ {n i : Nat}, i < n →
    (List.replicate n a).getD i d = a := by
  intro n
  induction n with
  | zero => intro i h; simp at h
  | succ m ih =>
    intro i h
    cases i with
    | zero => simp [List.replicate]
    | succ j => simpa [List.replicate] using ih (by omega)

theorem shaped_fillGrid (nr nc : Nat) (b : Int) : Shaped nr nc (fillGrid nr nc b) := by
  constructor
  · simp [fillGrid]
  · intro row hm
    rw [List.eq_of_mem_replicate hm]
    simp

theorem cellAt_fillGrid {nr nc : Nat} (b : Int) {r c : Nat} (hr : r < nr) (hc : c < nc) :
    cellAt (fillGrid nr nc b) r c = b := by
  unfold cellAt fillGrid
  rw [getD_replicate_of_lt hr, getD_replicate_of_lt hc]

theorem shaped_foldl_burn (t : Bool) (g : GridDef) {nr nc : Nat} :
    ∀ (fs : List Feature) (ras : List (List Int)), Shaped nr nc ras →
      Shaped nr nc (fs.foldl (fun a f => burnFeature t g a f) ras) := by
  intro fs
  induction fs with
  | nil => intro ras h; exact h
  | cons f fs ih =>
    intro ras h
    exact ih (burnFeature t g ras f) (shaped_burnFeature t g f h)

theorem cellAt_foldl_burn (t : Bool) (g : GridDef) {nr nc r c : Nat}
    (hr : r < nr) (hc : c < nc) :
    ∀ (fs : List Feature) (ras : List (List Int)), Shaped nr nc ras →
      cellAt (fs.foldl (fun a f => burnFeature t g a f) ras) r c =
        fs.foldl (fun v f => if coversCell t g f r c then f.attr else v) (cellAt ras r c) := by
  intro fs
  induction fs with
  | nil => intro ras _; rfl
  | cons f fs ih =>
    intro ras h
    simp only [List.foldl_cons]
    rw [ih (burnFeature t g ras f) (shaped_burnFeature t g f h),
      cellAt_burnFeature t g f h hr hc]

theorem overwriteFold_mem (t : Bool) (g : GridDef) (r c : Nat) :
    ∀ (fs : List Feature) (v : Int),
      fs.foldl (fun v f => if coversCell t g f r c then f.attr else v) v = v ∨
        ∃ f ∈ fs, fs.foldl (fun v f => if coversCell t g f r c then f.attr else v) v = f.attr := by
  intro fs
  induction fs with
  | nil => intro v; left; rfl
  | cons f fs ih =>
    intro v
    simp only [List.foldl_cons]
    by_cases hcov : coversCell t g f r c
    · rcases ih (if coversCell t g f r c then f.attr else v) with h | h
      · right
        refine ⟨f, List.mem_cons_self f fs, ?_⟩
        rw [h, if_pos hcov]
      · obtain ⟨f2, hf2, heq⟩ := h
        exact Or.inr ⟨f2, List.mem_cons_of_mem f hf2, heq⟩
    · rcases ih (if coversCell t g f r c then f.attr else v) with h | h
      · left
        rw [h, if_neg hcov]
      · obtain ⟨f2, hf2, heq⟩ := h
        exact Or.inr ⟨f2, List.mem_cons_of_mem f hf2, heq⟩

/-- Low x-bound of the grid extent (the grid spans `ncols` cells from `x0`). -/
def extentXlow (g : GridDef) : Int := min g.x0 (g.x0 + g.ncols * g.sx)

/-- High x-bound of the grid extent. -/
def extentXhigh (g : GridDef) : Int := max g.x0 (g.x0 + g.ncols * g.sx)

/-- Low y-bound of the grid extent. -/
def extentYlow (g : GridDef) : Int := min g.y0 (g.y0 + g.nrows * g.sy)

/-- High y-bound of the grid extent. -/
def extentYhigh (g : GridDef) : Int := max g.y0 (g.y0 + g.nrows * g.sy)

/-- The feature's geometry lies entirely outside the grid extent: its bounding
box is strictly disjoint from the extent rectangle (a feature with no points
is vacuously outside). -/
def outsideExtent (g : GridDef) (f : Feature) : Bool :=
  match featureBBox f with
  | none => true
  | some bb =>
    decide (bb.xhi < extentXlow g) || decide (extentXhigh g < bb.xlo) ||
    decide (bb.yhi < extentYlow g) || decide (extentYhigh g < bb.ylo)

theorem interval_cell_subset {x0 s n i : Int} (h0 : 0 ≤ i) (h1 : i + 1 ≤ n) :
    min x0 (x0 + n * s) ≤ x0 + i * s ∧ min x0 (x0 + n * s) ≤ x0 + (i + 1) * s ∧
    x0 + i * s ≤ max x0 (x0 + n * s) ∧ x0 + (i + 1) * s ≤ max x0 (x0 + n * s) := by
  rcases le_total 0 s with hs | hs
  · have k1 : 0 ≤ i * s := mul_nonneg h0 hs
    have k2 : 0 ≤ (i + 1) * s := mul_nonneg (by omega) hs
    have k3 : i * s ≤ n * s := mul_le_mul_of_nonneg_right (by omega) hs
    have k4 : (i + 1) * s ≤ n * s := mul_le_mul_of_nonneg_right h1 hs
    exact ⟨le_trans (min_le_left _ _) (by linarith),
      le_trans (min_le_left _ _) (by linarith),
      le_trans (by linarith) (le_max_right _ _),
      le_trans (by linarith) (le_max_right _ _)⟩
  · have k1 : i * s ≤ 0 := by nlinarith
    have k2 : (i + 1) * s ≤ 0 := by nlinarith
    have k3 : n * s ≤ i * s := by nlinarith
    have k4 : n * s ≤ (i + 1) * s := by nlinarith
    exact ⟨le_trans (min_le_right _ _) (by linarith),
      le_trans (min_le_right _ _) (by linarith),
      le_trans (by linarith) (le_max_left _ _),
      le_trans (by linarith) (le_max_left _ _)⟩

theorem cellX_in_extent (g : GridDef) (c : Nat) (hc : (c : Int) + 1 ≤ g.ncols) :
    extentXlow g ≤ min (cellXlow g c) (cellXhigh g c) ∧
    max (cellXlow g c) (cellXhigh g c) ≤ extentXhigh g := by
  have h := @interval_cell_subset g.x0 g.sx g.ncols (c : Int) (by positivity) hc
  unfold extentXlow extentXhigh cellXlow cellXhigh
  exact ⟨le_min h.1 h.2.1, max_le h.2.2.1 h.2.2.2⟩

theorem cellY_in_extent (g : GridDef) (r : Nat) (hr : (r : Int) + 1 ≤ g.nrows) :
    extentYlow g ≤ min (cellYlow g r) (cellYhigh g r) ∧
    max (cellYlow g r) (cellYhigh g r) ≤ extentYhigh g := by
  have h := @interval_cell_subset g.y0 g.sy g.nrows (r : Int) (by positivity) hr
  unfold extentYlow extentYhigh cellYlow cellYhigh
  exact ⟨le_min h.1 h.2.1, max_le h.2.2.1 h.2.2.2⟩

theorem coversCell_eq_false_of_outside (t : Bool) (g : GridDef) (f : Feature)
    (houts : outsideExtent g f = true) (r c : Nat)
    (hr : (r : Int) + 1 ≤ g.nrows) (hc : (c : Int) + 1 ≤ g.ncols) :
    coversCell t g f r c = false := by
  unfold coversCell
  cases hbb : featureBBox f with
  | none => rfl
  | some bb =>
    unfold outsideExtent at houts
    rw [hbb] at houts
    simp only [Bool.or_eq_true, decide_eq_true_eq] at houts
    have hx := cellX_in_extent g c hc
    have hy := cellY_in_extent g r hr
    rcases houts with ((hcase | hcase) | hcase) | hcase
    · have : ¬ (min (cellXlow g c) (cellXhigh g c) ≤ bb.xhi) := by linarith [hx.1]
      simp [intervalsOverlap, this]
    · have : ¬ (bb.xlo ≤ max (cellXlow g c) (cellXhigh g c)) := by linarith [hx.2]
      simp [intervalsOverlap, this]
    · have : ¬ (min (cellYlow g r) (cellYhigh g r) ≤ bb.yhi) := by linarith [hy.1]
      simp [intervalsOverlap, this]
    · have : ¬ (bb.ylo ≤ max (cellYlow g r) (cellYhigh g r)) := by linarith [hy.2]
      simp [intervalsOverlap, this]

theorem burnRow_id (t : Bool) (g : GridDef) (f : Feature) (r : Nat) :
    ∀ (c0 : Nat) (l : List Int),
      (∀ i < l.length, coversCell t g f r (c0 + i) = false) →
      burnRow t g f r c0 l = l := by
  intro c0 l
  induction l generalizing c0 with
  | nil => intro _; rfl
  | cons v vs ih =>
    intro h
    have h0 : coversCell t g f r c0 = false := by simpa using h 0 (by simp)
    have hne : ¬ (coversCell t g f r c0 = true) := by rw [h0]; exact Bool.false_ne_true
    have htail : burnRow t g f r (c0 + 1) vs = vs := by
      refine ih (c0 + 1) ?_
      intro i hi
      have := h (i + 1) (by simpa using Nat.succ_lt_succ hi)
      rwa [show c0 + (i + 1) = c0 + 1 + i by omega] at this
    simp only [burnRow]
    rw [if_neg hne, htail]

theorem burnRows_id (t : Bool) (g : GridDef) (f : Feature) :
    ∀ (r0 : Nat) (ras : List (List Int)),
      (∀ j < ras.length, ∀ c < ((ras.getD j []).length), coversCell t g f (r0 + j) c = false) →
      burnRows t g f r0 ras = ras := by
  intro r0 ras
  induction ras generalizing r0 with
  | nil => intro _; rfl
  | cons row rows ih =>
    intro h
    simp only [burnRows, List.cons.injEq]
    constructor
    · refine burnRow_id t g f r0 0 row ?_
      intro i hi
      simpa using h 0 (by simp) i (by simpa using hi)
    · refine ih (r0 + 1) ?_
      intro j hj c hc
      have := h (j + 1) (by simpa using Nat.succ_lt_succ hj) c (by simpa using hc)
      rwa [show r0 + (j + 1) = r0 + 1 + j by omega] at this

theorem burnFeature_id (t : Bool) (g : GridDef) (f : Feature) {nr nc : Nat}
    {ras : List (List Int)} (hsh : Shaped nr nc ras)
    (hcov : ∀ r < nr, ∀ c < nc, coversCell t g f r c = false) :
    burnFeature t g ras f = ras := by
  obtain ⟨hlen, hrow⟩ := hsh
  refine burnRows_id t g f 0 ras ?_
  intro j hj c hc
  have hjr : j < nr := by rw [← hlen]; exact hj
  have hrl : (ras.getD j []).length = nc := hrow _ (rowAt_mem hj)
  rw [hrl] at hc
  simpa using hcov j hjr c hc

theorem rasterize_ok_of_valid (fs : List Feature) (g : GridDef) (b : Int) (t : Bool)
    (hv : validGrid g) (ha : ∀ f ∈ fs, attrRepresentable f.attr) :
    rasterize fs g b t =
      .ok (fs.foldl (fun ras f => burnFeature t g ras f)
        (fillGrid g.nrows.toNat g.ncols.toNat b)) := by
  obtain ⟨h1, h2, h3, h4⟩ := hv
  have hg : ¬ (g.ncols ≤ 0 ∨ g.nrows ≤ 0 ∨ g.sx = 0 ∨ g.sy = 0) := by
    rintro (h | h | h | h) <;> omega
  have hb : ¬ ((fs.any fun f => decide (¬ attrRepresentable f.attr)) = true) := by
    simp only [List.any_eq_true, decide_eq_true_eq, not_exists, not_and, not_not]
    exact ha
  unfold rasterize
  rw [if_neg hg, if_neg hb]

theorem rasterize_outside_erase (as bs : List Feature) (f : Feature) (g : GridDef)
    (b : Int) (t : Bool) (hattr : attrRepresentable f.attr)
    (hout : outsideExtent g f = true) :
    rasterize (as ++ f :: bs) g b t = rasterize (as ++ bs) g b t := by
  unfold rasterize
  by_cases hg : g.ncols ≤ 0 ∨ g.nrows ≤ 0 ∨ g.sx = 0 ∨ g.sy = 0
  · rw [if_pos hg, if_pos hg]
  · rw [if_neg hg, if_neg hg]
    have hfok : decide (¬ attrRepresentable f.attr) = false := by simp [hattr]
    have hanyEq : ((as ++ f :: bs).any fun f => decide (¬ attrRepresentable f.attr)) =
        ((as ++ bs).any fun f => decide (¬ attrRepresentable f.attr)) := by
      simp only [List.any_append, List.any_cons, hfok]
      simp
    rw [hanyEq]
    by_cases hb : ((as ++ bs).any fun f => decide (¬ attrRepresentable f.attr)) = true
    · rw [if_pos hb, if_pos hb]
    · rw [if_neg hb, if_neg hb]
      congr 1
      rw [List.foldl_append, List.foldl_append, List.foldl_cons]
      congr 1
      apply burnFeature_id t g f
        (shaped_foldl_burn t g as _ (shaped_fillGrid g.nrows.toNat g.ncols.toNat b))
      intro r hr c hc
      exact coversCell_eq_false_of_outside t g f hout r c (by omega) (by omega)

/-- C1: For every grid definition, every background value B, and the empty
feature sequence, `rasterize` returns a grid whose dimensions equal the grid
definition's row and column counts and in which every cell equals B. -/
theorem rasterize_empty_all_background (g : GridDef) (b : Int) (t : Bool)
    (hv : validGrid g) :
    ∃ out, rasterize [] g b t = .ok out ∧
      out.length = g.nrows.toNat ∧
      (∀ row ∈ out, row.length = g.ncols.toNat) ∧
      (∀ row ∈ out, ∀ v ∈ row, v = b) := by
  refine ⟨fillGrid g.nrows.toNat g.ncols.toNat b, ?_, ?_, ?_, ?_⟩
  · simpa using rasterize_ok_of_valid [] g b t hv (by simp)
  · simp [fillGrid]
  · intro row hm
    rw [List.eq_of_mem_replicate hm]
    simp
  · intro row hm v hvm
    rw [List.eq_of_mem_replicate hm] at hvm
    exact List.eq_of_mem_replicate hvm

theorem rasterize_empty_all_background_witness :
    validGrid ⟨0, 0, 1, -1, 4, 3⟩ ∧
    (∃ out, rasterize [] ⟨0, 0, 1, -1, 4, 3⟩ 7 true = .ok out ∧
      out.length = (⟨0, 0, 1, -1, 4, 3⟩ : GridDef).nrows.toNat ∧
      (∀ row ∈ out, row.length = (⟨0, 0, 1, -1, 4, 3⟩ : GridDef).ncols.toNat) ∧
      (∀ row ∈ out, ∀ v ∈ row, v = 7)) :=
  ⟨by decide, rasterize_empty_all_background ⟨0, 0, 1, -1, 4, 3⟩ 7 true (by decide)⟩

/-- C2: For every feature sequence and every grid definition (valid, with
representable attributes, so that a grid is returned), every cell of the grid
returned by `rasterize` is either the background value or the attribute value
of some feature in the input sequence; no other value ever appears. -/
theorem rasterize_cells_background_or_attr (fs : List Feature) (g : GridDef)
    (b : Int) (t : Bool) (hv : validGrid g)
    (ha : ∀ f ∈ fs, attrRepresentable f.attr) :
    ∃ out, rasterize fs g b t = .ok out ∧
      ∀ r c, r < g.nrows.toNat → c < g.ncols.toNat →
        cellAt out r c = b ∨ ∃ f ∈ fs, cellAt out r c = f.attr := by
  refine ⟨_, rasterize_ok_of_valid fs g b t hv ha, ?_⟩
  intro r c hr hc
  rw [cellAt_foldl_burn t g hr hc fs _
    (shaped_fillGrid g.nrows.toNat g.ncols.toNat b), cellAt_fillGrid b hr hc]
  exact overwriteFold_mem t g r c fs b

theorem rasterize_cells_background_or_attr_witness :
    validGrid ⟨0, 0, 1, 1, 3, 3⟩ ∧
    (∀ f ∈ [(⟨[[⟨0, 0⟩, ⟨2, 0⟩, ⟨2, 2⟩, ⟨0, 2⟩, ⟨0, 0⟩]], 7⟩ : Feature)],
      attrRepresentable f.attr) ∧
    (∃ out, rasterize [⟨[[⟨0, 0⟩, ⟨2, 0⟩, ⟨2, 2⟩, ⟨0, 2⟩, ⟨0, 0⟩]], 7⟩]
        ⟨0, 0, 1, 1, 3, 3⟩ 0 false = .ok out ∧
      ∀ r c, r < (⟨0, 0, 1, 1, 3, 3⟩ : GridDef).nrows.toNat →
        c < (⟨0, 0, 1, 1, 3, 3⟩ : GridDef).ncols.toNat →
        cellAt out r c = 0 ∨
          ∃ f ∈ [(⟨[[⟨0, 0⟩, ⟨2, 0⟩, ⟨2, 2⟩, ⟨0, 2⟩, ⟨0, 0⟩]], 7⟩ : Feature)],
            cellAt out r c = f.attr) :=
  ⟨by decide, by decide,
    rasterize_cells_background_or_attr _ _ 0 false (by decide) (by decide)⟩

/-- C3: For two features with attribute values A and B, B listed after A, and
any cell covered by both features under the chosen `all_touched` policy, the
cell's value in the grid returned by `rasterize` is B: the later feature
overwrites the earlier one on every shared cell. -/
theorem rasterize_later_feature_wins (fA fB : Feature) (g : GridDef) (b : Int)
    (t : Bool) (hv : validGrid g)
    (haA : attrRepresentable fA.attr) (haB : attrRepresentable fB.attr)
    (r c : Nat) (hr : r < g.nrows.toNat) (hc : c < g.ncols.toNat)
    (_hcovA : coversCell t g fA r c = true) (hcovB : coversCell t g fB r c = true) :
    ∃ out, rasterize [fA, fB] g b t = .ok out ∧ cellAt out r c = fB.attr := by
  refine ⟨_, rasterize_ok_of_valid [fA, fB] g b t hv ?_, ?_⟩
  · intro f hf
    rcases List.mem_cons.mp hf with h | h
    · rw [h]; exact haA
    · rw [List.mem_singleton.mp h]; exact haB
  · rw [cellAt_foldl_burn t g hr hc [fA, fB] _
      (shaped_fillGrid g.nrows.toNat g.ncols.toNat b)]
    simp [hcovB]

theorem rasterize_later_feature_wins_witness :
    validGrid ⟨0, 0, 1, 1, 3, 3⟩ ∧
    attrRepresentable (3 : Int) ∧ attrRepresentable (5 : Int) ∧
    coversCell false ⟨0, 0, 1, 1, 3, 3⟩ ⟨[[⟨0, 0⟩, ⟨2, 0⟩, ⟨2, 2⟩, ⟨0, 2⟩, ⟨0, 0⟩]], 3⟩ 0 0 = true ∧
    coversCell false ⟨0, 0, 1, 1, 3, 3⟩ ⟨[[⟨0, 0⟩, ⟨1, 0⟩, ⟨1, 1⟩, ⟨0, 1⟩, ⟨0, 0⟩]], 5⟩ 0 0 = true ∧
    (∃ out,
      rasterize [⟨[[⟨0, 0⟩, ⟨2, 0⟩, ⟨2, 2⟩, ⟨0, 2⟩, ⟨0, 0⟩]], 3⟩,
                 ⟨[[⟨0, 0⟩, ⟨1, 0⟩, ⟨1, 1⟩, ⟨0, 1⟩, ⟨0, 0⟩]], 5⟩]
        ⟨0, 0, 1, 1, 3, 3⟩ 0 false = .ok out ∧ cellAt out 0 0 = 5) :=
  ⟨by decide, by decide, by decide, by decide, by decide,
    rasterize_later_feature_wins
      ⟨[[⟨0, 0⟩, ⟨2, 0⟩, ⟨2, 2⟩, ⟨0, 2⟩, ⟨0, 0⟩]], 3⟩
      ⟨[[⟨0, 0⟩, ⟨1, 0⟩, ⟨1, 1⟩, ⟨0, 1⟩, ⟨0, 0⟩]], 5⟩
      ⟨0, 0, 1, 1, 3, 3⟩ 0 false (by decide) (by decide) (by decide) 0 0
      (by decide) (by decide) (by decide) (by decide)⟩

/-- C4: For every polygon feature and grid definition, every cell covered
under `all_touched = false` (cell center inside the polygon) is also covered
under `all_touched = true` (boundary or interior intersects the cell): the
false-policy coverage is a subset of the true-policy coverage. -/
theorem coverage_false_subset_true (g : GridDef) (f : Feature) (r c : Nat)
    (h : coversCell false g f r c = true) :
    coversCell true g f r c = true := by
  cases hbb : featureBBox f with
  | none =>
    unfold coversCell at h
    rw [hbb] at h
    exact absurd h (by simp)
  | some bb =>
    unfold coversCell at h ⊢
    rw [hbb] at h ⊢
    simp only [Bool.and_eq_true] at h ⊢
    refine ⟨h.1, ?_⟩
    have hcen : centerInPoly g f r c = true := by simpa using h.2
    have htch : cellTouched g f r c = true := by
      unfold cellTouched
      simp [hcen]
    simp [htch]

theorem coverage_false_subset_true_witness :
    coversCell false ⟨0, 0, 1, 1, 3, 3⟩ ⟨[[⟨0, 0⟩, ⟨2, 0⟩, ⟨2, 2⟩, ⟨0, 2⟩, ⟨0, 0⟩]], 7⟩ 1 1 = true ∧
    coversCell true ⟨0, 0, 1, 1, 3, 3⟩ ⟨[[⟨0, 0⟩, ⟨2, 0⟩, ⟨2, 2⟩, ⟨0, 2⟩, ⟨0, 0⟩]], 7⟩ 1 1 = true :=
  ⟨by decide,
    coverage_false_subset_true ⟨0, 0, 1, 1, 3, 3⟩
      ⟨[[⟨0, 0⟩, ⟨2, 0⟩, ⟨2, 2⟩, ⟨0, 2⟩, ⟨0, 0⟩]], 7⟩ 1 1 (by decide)⟩

/-- C5: `rasterize` fails with `InvalidGridError` exactly when the grid
definition has column count ≤ 0, row count ≤ 0, or a zero cell size — for any
feature sequence, background, and policy; in particular a 0-row grid raises
it and a well-formed grid never does. -/
theorem rasterize_invalid_grid_iff (fs : List Feature) (g : GridDef) (b : Int)
    (t : Bool) :
    rasterize fs g b t = .error .invalidGridError ↔
      g.ncols ≤ 0 ∨ g.nrows ≤ 0 ∨ g.sx = 0 ∨ g.sy = 0 := by
  constructor
  · intro h
    by_contra hg
    unfold rasterize at h
    rw [if_neg hg] at h
    by_cases hb : (fs.any fun f => decide (¬ attrRepresentable f.attr)) = true
    · rw [if_pos hb] at h
      simp at h
    · rw [if_neg hb] at h
      simp at h
  · intro hg
    unfold rasterize
    rw [if_pos hg]

/-- C6: For every feature sequence containing a feature whose attribute value
is not representable in the output raster's single-byte value type,
`rasterize` never returns a grid, and (whenever the grid itself is valid, so
that the attribute check is reached) it fails with
`UnsupportedAttributeTypeError`. -/
theorem rasterize_unsupported_attr (fs : List Feature) (g : GridDef) (b : Int)
    (t : Bool) (f : Feature) (hf : f ∈ fs) (ha : ¬ attrRepresentable f.attr) :
    (∀ out, rasterize fs g b t ≠ .ok out) ∧
    (validGrid g → rasterize fs g b t = .error .unsupportedAttributeTypeError) := by
  have hany : (fs.any fun f => decide (¬ attrRepresentable f.attr)) = true := by
    simp only [List.any_eq_true, decide_eq_true_eq]
    exact ⟨f, hf, ha⟩
  constructor
  · intro out hok
    unfold rasterize at hok
    by_cases hg : g.ncols ≤ 0 ∨ g.nrows ≤ 0 ∨ g.sx = 0 ∨ g.sy = 0
    · rw [if_pos hg] at hok
      simp at hok
    · rw [if_neg hg, if_pos hany] at hok
      simp at hok
  · intro hv
    obtain ⟨h1, h2, h3, h4⟩ := hv
    have hg : ¬ (g.ncols ≤ 0 ∨ g.nrows ≤ 0 ∨ g.sx = 0 ∨ g.sy = 0) := by
      rintro (h | h | h | h) <;> omega
    unfold rasterize
    rw [if_neg hg, if_pos hany]

theorem rasterize_unsupported_attr_witness :
    (⟨[[⟨0, 0⟩, ⟨1, 0⟩, ⟨1, 1⟩, ⟨0, 1⟩, ⟨0, 0⟩]], 300⟩ : Feature) ∈
      [(⟨[[⟨0, 0⟩, ⟨1, 0⟩, ⟨1, 1⟩, ⟨0, 1⟩, ⟨0, 0⟩]], 300⟩ : Feature)] ∧
    ¬ attrRepresentable (300 : Int) ∧
    ((∀ out, rasterize [⟨[[⟨0, 0⟩, ⟨1, 0⟩, ⟨1, 1⟩, ⟨0, 1⟩, ⟨0, 0⟩]], 300⟩]
        ⟨0, 0, 1, 1, 3, 3⟩ 0 true ≠ .ok out) ∧
      (validGrid ⟨0, 0, 1, 1, 3, 3⟩ →
        rasterize [⟨[[⟨0, 0⟩, ⟨1, 0⟩, ⟨1, 1⟩, ⟨0, 1⟩, ⟨0, 0⟩]], 300⟩]
          ⟨0, 0, 1, 1, 3, 3⟩ 0 true = .error .unsupportedAttributeTypeError)) :=
  ⟨by decide, by decide,
    rasterize_unsupported_attr _ ⟨0, 0, 1, 1, 3, 3⟩ 0 true
      ⟨[[⟨0, 0⟩, ⟨1, 0⟩, ⟨1, 1⟩, ⟨0, 1⟩, ⟨0, 0⟩]], 300⟩ (by decide) (by decide)⟩

/-- C7: A feature whose geometry lies entirely outside the grid extent (and
whose attribute is representable, so it cannot trip the attribute check)
contributes no covered cells: removing it from the feature sequence leaves
the result of `rasterize` unchanged, and in particular no error is raised on
its account. -/
theorem rasterize_outside_feature_noop (as bs : List Feature) (f : Feature)
    (g : GridDef) (b : Int) (t : Bool) (hattr : attrRepresentable f.attr)
    (hout : outsideExtent g f = true) :
    rasterize (as ++ f :: bs) g b t = rasterize (as ++ bs) g b t :=
  rasterize_outside_erase as bs f g b t hattr hout

theorem rasterize_outside_feature_noop_witness :
    attrRepresentable (9 : Int) ∧
    outsideExtent ⟨0, 0, 1, 1, 3, 3⟩ ⟨[[⟨10, 10⟩, ⟨11, 10⟩, ⟨11, 11⟩, ⟨10, 11⟩, ⟨10, 10⟩]], 9⟩ = true ∧
    rasterize [⟨[[⟨10, 10⟩, ⟨11, 10⟩, ⟨11, 11⟩, ⟨10, 11⟩, ⟨10, 10⟩]], 9⟩]
        ⟨0, 0, 1, 1, 3, 3⟩ 0 true =
      rasterize [] ⟨0, 0, 1, 1, 3, 3⟩ 0 true :=
  ⟨by decide, by decide,
    rasterize_outside_feature_noop [] []
      ⟨[[⟨10, 10⟩, ⟨11, 10⟩, ⟨11, 11⟩, ⟨10, 11⟩, ⟨10, 10⟩]], 9⟩
      ⟨0, 0, 1, 1, 3, 3⟩ 0 true (by decide) (by decide)⟩

/-- C8: `rasterize` is deterministic: two calls with identical feature
sequences, grid definitions, background values, and `all_touched` flags
return identical output grids (it is a pure function of its inputs). -/
theorem rasterize_deterministic (fs1 fs2 : List Feature) (g1 g2 : GridDef)
    (b1 b2 : Int) (t1 t2 : Bool) (hf : fs1 = fs2) (hg : g1 = g2)
    (hb : b1 = b2) (ht : t1 = t2) :
    rasterize fs1 g1 b1 t1 = rasterize fs2 g2 b2 t2 := by
  rw [hf, hg, hb, ht]

theorem rasterize_deterministic_witness :
    rasterize [⟨[[⟨0, 0⟩, ⟨2, 0⟩, ⟨2, 2⟩, ⟨0, 2⟩, ⟨0, 0⟩]], 4⟩] ⟨0, 0, 1, -1, 2, 2⟩ 0 true =
      rasterize [⟨[[⟨0, 0⟩, ⟨2, 0⟩, ⟨2, 2⟩, ⟨0, 2⟩, ⟨0, 0⟩]], 4⟩] ⟨0, 0, 1, -1, 2, 2⟩ 0 true :=
  rasterize_deterministic _ _ _ _ _ _ _ _ rfl rfl rfl rfl

theorem flatten_length_of_shaped :
    ∀ (ras : List (List Int)) (nr nc : Nat), Shaped nr nc ras →
      ras.flatten.length = nr * nc := by
  intro ras
  induction ras with
  | nil =>
    intro nr nc h
    obtain ⟨hlen, _⟩ := h
    simp at hlen
    subst hlen
    simp
  | cons row rows ih =>
    intro nr nc h
    obtain ⟨hlen, hrow⟩ := h
    cases nr with
    | zero => simp at hlen
    | succ m =>
      have hl : rows.length = m := by simpa using hlen
      have hrest := ih m nc ⟨hl, fun q hq => hrow q (List.mem_cons_of_mem _ hq)⟩
      simp only [List.flatten_cons, List.length_append, hrest,
        hrow row (List.mem_cons_self _ _)]
      ring

/-- C10: the per-class pixel counts of the class-count check partition the
ROI raster: every cell's value occurs in `np.unique`'s class list, the class
list has no duplicates (each cell is counted for exactly one class), and the
counts sum to the raster's total cell count, rows × columns. -/
theorem roi_class_counts_partition (ras : List (List Int)) (nr nc : Nat)
    (h : Shaped nr nc ras) :
    (∀ v ∈ ras.flatten, v ∈ npUnique ras.flatten) ∧
    (npUnique ras.flatten).Nodup ∧
    ((npUnique ras.flatten).map (fun c => classPixelCount ras.flatten c)).sum = nr * nc := by
  have hperm : List.Perm (npUnique ras.flatten) ras.flatten.dedup :=
    List.perm_insertionSort _ _
  refine ⟨?_, ?_, ?_⟩
  · intro v hv
    exact hperm.mem_iff.mpr (List.mem_dedup.mpr hv)
  · exact hperm.symm.nodup (List.nodup_dedup _)
  · rw [(hperm.map (fun c => classPixelCount ras.flatten c)).sum_eq]
    have := List.sum_map_count_dedup_eq_length ras.flatten
    unfold classPixelCount
    rw [this]
    exact flatten_length_of_shaped ras nr nc h

theorem roi_class_counts_partition_witness :
    Shaped 2 2 [[0, 1], [1, 3]] ∧
    ((∀ v ∈ ([[0, 1], [1, 3]] : List (List Int)).flatten,
        v ∈ npUnique ([[0, 1], [1, 3]] : List (List Int)).flatten) ∧
      (npUnique ([[0, 1], [1, 3]] : List (List Int)).flatten).Nodup ∧
      ((npUnique ([[0, 1], [1, 3]] : List (List Int)).flatten).map
        (fun c => classPixelCount ([[0, 1], [1, 3]] : List (List Int)).flatten c)).sum = 2 * 2) :=
  ⟨by decide, roi_class_counts_partition [[0, 1], [1, 3]] 2 2 (by decide)⟩
